import Mathlib

/-!
Verification of the cubeworld game client excerpt: the `Point` 3-axis
integer coordinate primitive (src/include/point.h) and the fixed-timestep
`GameClient` loop driver (gameclient.cpp).

C++ `int` values are modelled as `ℤ` (no claim involves overflow), the
`Time` value type as exact rationals `ℚ`, pointers as `Option` over an
abstract address type, and `assert` failures as `Option.none` results.
-/

namespace Cubeworld

/-! ### Point (src/include/point.h) -/

/-- Permutation table `PR` (row slot for each axis): `const int PR[3] = { 1, 2, 0 }`. -/
def PR : Fin 3 → Fin 3
  | 0 => 1
  | 1 => 2
  | 2 => 0

/-- Permutation table `PC` (column slot for each axis): `const int PC[3] = { 2, 0, 1 }`. -/
def PC : Fin 3 → Fin 3
  | 0 => 2
  | 1 => 0
  | 2 => 1

/-- Permutation table `PD` (depth slot for each axis): `const int PD[3] = { 0, 1, 2 }`. -/
def PD : Fin 3 → Fin 3
  | 0 => 0
  | 1 => 1
  | 2 => 2

/-- The `Point` class: three integers. The union of `struct {x;y;z;}` with
`int v[3]` is modelled by the named fields plus the accessor `Point.v` and
writer `Point.setV` (the source identifies `x = v[0]`, `y = v[1]`, `z = v[2]`). -/
structure Point where
  x : ℤ
  y : ℤ
  z : ℤ
  deriving DecidableEq, Repr

/-- Read through the `v[3]` view of the union: `v[0] = x`, `v[1] = y`, `v[2] = z`. -/
def Point.v (p : Point) : Fin 3 → ℤ
  | 0 => p.x
  | 1 => p.y
  | 2 => p.z

/-- Write through the `v[3]` view of the union. -/
def Point.setV (p : Point) (i : Fin 3) (val : ℤ) : Point :=
  match i with
  | 0 => { p with x := val }
  | 1 => { p with y := val }
  | 2 => { p with z := val }

/-- The four-argument constructor `Point(int axis, int x_, int y_, int z_)`:
asserts `axis >= 0 && axis < 3` (modelled as `none` on violation), then performs
the three writes `v[PR[axis]] = x_; v[PC[axis]] = y_; v[PD[axis]] = z_` starting
from the given (uninitialized in the source) component values `p0`. -/
def Point.mkAxisFrom (p0 : Point) (axis : ℤ) (x_ y_ z_ : ℤ) : Option Point :=
  if h : 0 ≤ axis ∧ axis < 3 then
    let ax : Fin 3 := ⟨axis.toNat, by omega⟩
    some (((p0.setV (PR ax) x_).setV (PC ax) y_).setV (PD ax) z_)
  else
    none

/-- The four-argument constructor with the uninitialized storage fixed at zeros
(legitimate because every slot is written; see the initialization theorem). -/
def Point.mkAxis (axis : ℤ) (x_ y_ z_ : ℤ) : Option Point :=
  Point.mkAxisFrom ⟨0, 0, 0⟩ axis x_ y_ z_

/-- `isZero()`: true iff all three components are 0. -/
def Point.isZero (p : Point) : Bool :=
  p.x == 0 && p.y == 0 && p.z == 0

/-! ### GameClient state (gameclient.cpp) -/

/-- Abstract addresses for the window / renderer collaborators; a C++ pointer
is `Option Addr` with `none` playing the role of `NULL`. -/
abbrev Addr : Type := ℕ

/-- Program exit statuses `App::EPROGRAM_OK` / `App::EPROGRAM_FATAL_ERROR`
(their numeric values are outside this excerpt; only their distinction is used). -/
inductive ProgramStatus where
  | ok
  | fatalError
  deriving DecidableEq, Repr

/-- The `GameClient` member state. -/
structure GameClient where
  mpMainWindow : Option Addr
  mpRenderer : Option Addr
  mIsGameRunning : Bool
  mIsRunningSlowly : Bool
  mUpdateFrequency : ℚ
  mMaximumSleepSkew : ℚ
  deriving DecidableEq, Repr

/-- The constructor `GameClient::GameClient(IWindow*, IRenderer*)`, transcribed
from its initializer list: `mpMainWindow( pMainWindow ), mpRenderer( NULL ),
mIsGameRunning( false ), mIsRunningSlowly( false ),
mUpdateFrequency( 1.0f / 50.0f ), mMaximumSleepSkew( 0.01f )`.
Note the source initializes `mpRenderer` with `NULL`, not with `pRenderer`. -/
def GameClient.construct (pMainWindow pRenderer : Option Addr) : Option GameClient :=
  if pMainWindow = none ∨ pRenderer = none then
    none  -- assert( pMainWindow != NULL ); assert( pRenderer != NULL );
  else
    some
      { mpMainWindow := pMainWindow
        mpRenderer := none
        mIsGameRunning := false
        mIsRunningSlowly := false
        mUpdateFrequency := 1 / 50
        mMaximumSleepSkew := 1 / 100 }

/-- `GameClient::setUpdateFrequency(int numUpdatesPerSecond)`: asserts
`numUpdatesPerSecond > 0` (modelled as `none`), then sets
`mUpdateFrequency = Time( 1.0 / numUpdatesPerSecond )`. -/
def GameClient.setUpdateFrequency (c : GameClient) (numUpdatesPerSecond : ℤ) :
    Option GameClient :=
  if numUpdatesPerSecond > 0 then
    some { c with mUpdateFrequency := 1 / (numUpdatesPerSecond : ℚ) }
  else
    none

/-- Observable events of `GameClient::run()`, in call order. -/
inductive RunEvent where
  | showWindow
  | callInitializeClient
  | callInitialize
  | callLoadContent
  | enterMainLoop
  | callUnloadContent
  deriving DecidableEq, Repr

/-- `GameClient::run()`, parameterized by the results of the three overridable
boolean hooks. Returns the trace of events (in order) and the status:
show the window; if `initializeClient() == false || initialize() == false`
(short-circuit: `initialize` runs only when `initializeClient` succeeded)
return `EPROGRAM_FATAL_ERROR`; if `!loadContent()` return
`EPROGRAM_FATAL_ERROR`; else run the main loop, call `unloadContent()`,
and return `EPROGRAM_OK`. -/
def GameClient.run (initializeClientResult initializeResult loadContentResult : Bool) :
    List RunEvent × ProgramStatus :=
  if initializeClientResult = false then
    ([.showWindow, .callInitializeClient], .fatalError)
  else if initializeResult = false then
    ([.showWindow, .callInitializeClient, .callInitialize], .fatalError)
  else if loadContentResult = false then
    ([.showWindow, .callInitializeClient, .callInitialize, .callLoadContent], .fatalError)
  else
    ([.showWindow, .callInitializeClient, .callInitialize, .callLoadContent,
      .enterMainLoop, .callUnloadContent], .ok)

/-! ### The fixed-timestep main loop (`GameClient::runMainGameLoop`)

The loop body is embedded per frame: one outer iteration takes the elapsed
frame time (the value of `newTime - systemTime`, an input in this model since
it comes from the wall clock) and transforms the simulation-visible state,
recording the `update` calls, the `draw` call and whether the end-of-frame
sleep branch was taken. -/

/-- State threaded through the inner accumulator-draining `while` loop:
`simulationTime`, `accumulatedTime`, the member `mIsRunningSlowly`, the
frame-local `numUpdates` counter, and the `(simulationTime, deltaTime)`
arguments of the `update` calls issued so far this frame. -/
structure DrainState where
  simulationTime : ℚ
  accumulatedTime : ℚ
  isRunningSlowly : Bool
  numUpdates : ℕ
  updateCalls : List (ℚ × ℚ)
  deriving DecidableEq, Repr

/-- One body execution of the inner loop
`while ( accumulatedTime >= mUpdateFrequency )`:
`mIsRunningSlowly = ( numUpdates > 0 ); update( simulationTime, mUpdateFrequency );
numUpdates += 1; simulationTime += mUpdateFrequency;
accumulatedTime -= mUpdateFrequency;`. -/
def drainStep (P : ℚ) (s : DrainState) : DrainState :=
  { simulationTime := s.simulationTime + P
    accumulatedTime := s.accumulatedTime - P
    isRunningSlowly := decide (s.numUpdates > 0)
    numUpdates := s.numUpdates + 1
    updateCalls := s.updateCalls ++ [(s.simulationTime, P)] }

/-- Fuelled transcription of the inner `while` loop; each step tests the
source's exact guard `accumulatedTime >= mUpdateFrequency`. -/
def drainGo (P : ℚ) : ℕ → DrainState → DrainState
  | 0, s => s
  | fuel + 1, s =>
    if P ≤ s.accumulatedTime then drainGo P fuel (drainStep P s) else s

/-- The inner accumulator-draining loop. The fuel `⌊accumulatedTime/P⌋ + 1` is
provably sufficient whenever `0 < P` (`drain_accumulatedTime_lt` shows the
guard is false on exit), so for every positive update period — the only
periods the source can hold, by the constructor default and the
`setUpdateFrequency` assertion — this equals the source's unbounded loop.
(For `P ≤ 0` the source loop would never terminate.) -/
def drain (P : ℚ) (s : DrainState) : DrainState :=
  drainGo P (⌊s.accumulatedTime / P⌋.toNat + 1) s

/-- The simulation-visible state carried from one outer-loop iteration to the
next: `simulationTime`, `accumulatedTime` and the member `mIsRunningSlowly`. -/
structure FrameState where
  simulationTime : ℚ
  accumulatedTime : ℚ
  isRunningSlowly : Bool
  deriving DecidableEq, Repr

/-- Everything one outer-loop iteration produces. -/
structure FrameOutput where
  /-- State handed to the next iteration. -/
  endState : FrameState
  /-- `frameTime` after the 0.25 s clamp — the amount added to the accumulator. -/
  frameTimeUsed : ℚ
  /-- Value of `accumulatedTime` right after `accumulatedTime += frameTime`,
  before the inner loop drains it. -/
  accumulatedBeforeDrain : ℚ
  /-- Value of the frame-local `numUpdates` counter after the inner loop. -/
  numUpdates : ℕ
  /-- Arguments of the `update` calls issued this frame, in order. -/
  updateCalls : List (ℚ × ℚ)
  /-- Arguments `(simulationTime, interpolation)` of this frame's `draw` call. -/
  drawCall : ℚ × ℚ
  /-- Whether the end-of-frame `App::sleep` branch was taken. -/
  slept : Bool
  deriving DecidableEq, Repr

/-- One outer-loop iteration of `runMainGameLoop`, given the elapsed wall-clock
time `rawFrameTime = newTime - systemTime` of this frame:
clamp (`if ( frameTime > Time(0.25) ) frameTime = Time(0.25)`),
accumulate (`accumulatedTime += frameTime` with `numUpdates = 0`),
drain the inner loop, compute
`interpolation = 1.0f - accumulatedTime/mUpdateFrequency`, issue
`draw( simulationTime, interpolation )`, and test the sleep branch
`if ( accumulatedTime + mMaximumSleepSkew < mUpdateFrequency )`. -/
def processFrame (P skew : ℚ) (s : FrameState) (rawFrameTime : ℚ) : FrameOutput :=
  let frameTime := if rawFrameTime > 1 / 4 then 1 / 4 else rawFrameTime
  let d :=
    drain P
      { simulationTime := s.simulationTime
        accumulatedTime := s.accumulatedTime + frameTime
        isRunningSlowly := s.isRunningSlowly
        numUpdates := 0
        updateCalls := [] }
  { endState :=
      { simulationTime := d.simulationTime
        accumulatedTime := d.accumulatedTime
        isRunningSlowly := d.isRunningSlowly }
    frameTimeUsed := frameTime
    accumulatedBeforeDrain := s.accumulatedTime + frameTime
    numUpdates := d.numUpdates
    updateCalls := d.updateCalls
    drawCall := (d.simulationTime, 1 - d.accumulatedTime / P)
    slept := decide (d.accumulatedTime + skew < P) }

/-- The same iteration with the end-of-frame sleep branch removed entirely
(the sleep call `App::sleep( Time(2.0) )` touches no member of the client). -/
def processFrameNoSleep (P skew : ℚ) (s : FrameState) (rawFrameTime : ℚ) : FrameOutput :=
  let o := processFrame P skew s rawFrameTime
  { o with slept := false }

/-- Iterate the outer loop over a finite sequence of elapsed frame times,
returning the final state and the per-frame outputs in order. -/
def runFrames (P skew : ℚ) (s : FrameState) : List ℚ → FrameState × List FrameOutput
  | [] => (s, [])
  | ft :: rest =>
    let o := processFrame P skew s ft
    let r := runFrames P skew o.endState rest
    (r.1, o :: r.2)

/-- Loop-entry state of `runMainGameLoop`: `simulationTime = Time(0.0)`,
`accumulatedTime = Time(0.0)`; `mIsRunningSlowly` is still `false` from the
constructor. -/
def initialFrameState : FrameState :=
  { simulationTime := 0, accumulatedTime := 0, isRunningSlowly := false }

/-- Total number of `update` calls over a run. -/
def totalUpdates (outs : List FrameOutput) : ℕ :=
  (outs.map FrameOutput.numUpdates).sum

/-! ### Closed form of the inner draining loop -/

/-- Number of inner-loop iterations performed from drain state `s`. -/
def drainCount (P : ℚ) (s : DrainState) : ℕ :=
  ⌊s.accumulatedTime / P⌋.toNat

/-- Number of `update` calls one frame performs, as a function of the state at
frame entry and the (already clamped) frame time. -/
def frameUpdateCount (P : ℚ) (s : FrameState) (ft : ℚ) : ℕ :=
  ⌊(s.accumulatedTime + ft) / P⌋.toNat

theorem drainCount_eq_zero_of_lt {P : ℚ} (hP : 0 < P) {s : DrainState}
    (h : s.accumulatedTime < P) : drainCount P s = 0 := by
  have h1 : ⌊s.accumulatedTime / P⌋ < 1 := by
    rw [Int.floor_lt]
    push_cast
    exact (div_lt_one hP).mpr h
  unfold drainCount
  omega

theorem drainCount_pos_of_le {P : ℚ} (hP : 0 < P) {s : DrainState}
    (h : P ≤ s.accumulatedTime) : 1 ≤ drainCount P s := by
  have h1 : (1 : ℤ) ≤ ⌊s.accumulatedTime / P⌋ := by
    rw [Int.le_floor]
    push_cast
    exact (one_le_div hP).mpr h
  unfold drainCount
  omega

theorem drainCount_drainStep {P : ℚ} (hP : 0 < P) (s : DrainState) :
    drainCount P (drainStep P s) = drainCount P s - 1 := by
  unfold drainCount drainStep
  have h1 : (s.accumulatedTime - P) / P = s.accumulatedTime / P - 1 := by
    field_simp
  simp only [h1, Int.floor_sub_one]
  omega

/-- Closed form of the fuelled inner loop, valid whenever the fuel covers the
iteration count. -/
theorem drainGo_spec (P : ℚ) (hP : 0 < P) :
    ∀ (fuel : ℕ) (s : DrainState), drainCount P s ≤ fuel →
      drainGo P fuel s =
        { simulationTime := s.simulationTime + (drainCount P s : ℚ) * P
          accumulatedTime := s.accumulatedTime - (drainCount P s : ℚ) * P
          isRunningSlowly :=
            if drainCount P s = 0 then s.isRunningSlowly
            else decide (0 < s.numUpdates + (drainCount P s - 1))
          numUpdates := s.numUpdates + drainCount P s
          updateCalls := s.updateCalls ++
            (List.range (drainCount P s)).map
              (fun (i : ℕ) => (s.simulationTime + (i : ℚ) * P, P)) } := by
  intro fuel
  induction fuel with
  | zero =>
    intro s hs
    have hm : drainCount P s = 0 := Nat.le_zero.mp hs
    rw [hm]
    cases s
    simp [drainGo]
  | succ fuel ih =>
    intro s hs
    by_cases hguard : P ≤ s.accumulatedTime
    · have hm1 : 1 ≤ drainCount P s := drainCount_pos_of_le hP hguard
      have hstep : drainCount P (drainStep P s) = drainCount P s - 1 :=
        drainCount_drainStep hP s
      have hrec := ih (drainStep P s) (by omega)
      have hunfold : drainGo P (fuel + 1) s = drainGo P fuel (drainStep P s) := by
        simp only [drainGo]
        rw [if_pos hguard]
      have hcast : ((drainCount P s - 1 : ℕ) : ℚ) = (drainCount P s : ℚ) - 1 := by
        push_cast [hm1]
        ring
      rw [hunfold, hrec, hstep]
      simp only [drainStep, DrainState.mk.injEq]
      refine ⟨?_, ?_, ?_, ?_, ?_⟩
      · rw [hcast]
        ring
      · rw [hcast]
        ring
      · rw [if_neg (by omega : ¬drainCount P s = 0)]
        by_cases h1 : drainCount P s - 1 = 0
        · rw [if_pos h1]
          exact decide_eq_decide.mpr (by omega)
        · rw [if_neg h1]
          exact decide_eq_decide.mpr (by omega)
      · omega
      · have hm' : drainCount P s = (drainCount P s - 1) + 1 := by omega
        rw [List.append_assoc]
        congr 1
        rw [hm', List.range_succ_eq_map, List.map_cons, List.map_map]
        simp only [List.singleton_append, Nat.cast_zero, zero_mul, add_zero]
        congr 1
        refine List.map_congr_left fun i hi => ?_
        simp only [Function.comp_apply, Prod.mk.injEq, and_true]
        push_cast
        ring
    · have hm : drainCount P s = 0 :=
        drainCount_eq_zero_of_lt hP (lt_of_not_le hguard)
      rw [hm]
      cases s with
      | mk sim acc slow num calls =>
        simp only [drainGo]
        rw [if_neg hguard]
        simp

/-- Closed form of the inner loop with its provably sufficient fuel. -/
theorem drain_spec (P : ℚ) (hP : 0 < P) (s : DrainState) :
    drain P s =
      { simulationTime := s.simulationTime + (drainCount P s : ℚ) * P
        accumulatedTime := s.accumulatedTime - (drainCount P s : ℚ) * P
        isRunningSlowly :=
          if drainCount P s = 0 then s.isRunningSlowly
          else decide (0 < s.numUpdates + (drainCount P s - 1))
        numUpdates := s.numUpdates + drainCount P s
        updateCalls := s.updateCalls ++
          (List.range (drainCount P s)).map
            (fun (i : ℕ) => (s.simulationTime + (i : ℚ) * P, P)) } :=
  drainGo_spec P hP _ s (Nat.le_succ _)

/-- On exit of the inner loop its guard is false: the fuel in `drain` was
sufficient and the embedding agrees with the source's unbounded `while`. -/
theorem drain_accumulatedTime_lt (P : ℚ) (hP : 0 < P) (s : DrainState) :
    (drain P s).accumulatedTime < P := by
  rw [drain_spec P hP s]
  have h1 : s.accumulatedTime / P < ⌊s.accumulatedTime / P⌋ + 1 :=
    Int.lt_floor_add_one _
  have h2 : (⌊s.accumulatedTime / P⌋ : ℚ) ≤ ((drainCount P s : ℕ) : ℚ) := by
    have := Int.self_le_toNat ⌊s.accumulatedTime / P⌋
    exact_mod_cast this
  have h3 : s.accumulatedTime / P < (drainCount P s : ℚ) + 1 := by linarith
  have h4 : s.accumulatedTime < ((drainCount P s : ℚ) + 1) * P :=
    (div_lt_iff₀ hP).mp h3
  simp only
  linarith

/-- The accumulator stays nonnegative through the inner loop. -/
theorem drain_accumulatedTime_nonneg (P : ℚ) (hP : 0 < P) (s : DrainState)
    (h0 : 0 ≤ s.accumulatedTime) : 0 ≤ (drain P s).accumulatedTime := by
  rw [drain_spec P hP s]
  have hfl : 0 ≤ ⌊s.accumulatedTime / P⌋ :=
    Int.floor_nonneg.mpr (div_nonneg h0 hP.le)
  have h2 : ((drainCount P s : ℕ) : ℚ) = (⌊s.accumulatedTime / P⌋ : ℚ) := by
    unfold drainCount
    exact_mod_cast Int.toNat_of_nonneg hfl
  have h3 : (⌊s.accumulatedTime / P⌋ : ℚ) ≤ s.accumulatedTime / P :=
    Int.floor_le _
  have h4 : (⌊s.accumulatedTime / P⌋ : ℚ) * P ≤ s.accumulatedTime := by
    rw [← le_div_iff₀ hP]
    exact h3
  simp only
  rw [h2]
  linarith

/-- Closed form of one outer-loop iteration when the clamp does not trigger. -/
theorem processFrame_spec (P skew : ℚ) (hP : 0 < P) (s : FrameState) (ft : ℚ)
    (hft : ft ≤ 1 / 4) :
    processFrame P skew s ft =
      { endState :=
          { simulationTime :=
              s.simulationTime + (frameUpdateCount P s ft : ℚ) * P
            accumulatedTime :=
              s.accumulatedTime + ft - (frameUpdateCount P s ft : ℚ) * P
            isRunningSlowly :=
              if frameUpdateCount P s ft = 0 then s.isRunningSlowly
              else decide (1 < frameUpdateCount P s ft) }
        frameTimeUsed := ft
        accumulatedBeforeDrain := s.accumulatedTime + ft
        numUpdates := frameUpdateCount P s ft
        updateCalls :=
          (List.range (frameUpdateCount P s ft)).map
            (fun (i : ℕ) => (s.simulationTime + (i : ℚ) * P, P))
        drawCall :=
          (s.simulationTime + (frameUpdateCount P s ft : ℚ) * P,
            1 - (s.accumulatedTime + ft - (frameUpdateCount P s ft : ℚ) * P) / P)
        slept :=
          decide
            (s.accumulatedTime + ft - (frameUpdateCount P s ft : ℚ) * P + skew
              < P) } := by
  have hnotgt : ¬ft > 1 / 4 := not_lt.mpr hft
  simp only [processFrame, if_neg hnotgt]
  rw [drain_spec P hP]
  have hcount :
      drainCount P
        { simulationTime := s.simulationTime
          accumulatedTime := s.accumulatedTime + ft
          isRunningSlowly := s.isRunningSlowly
          numUpdates := 0
          updateCalls := [] } = frameUpdateCount P s ft := rfl
  rw [hcount]
  simp only [FrameOutput.mk.injEq, FrameState.mk.injEq, List.nil_append, Nat.zero_add,
    Prod.mk.injEq, and_true, true_and]
  by_cases h0 : frameUpdateCount P s ft = 0
  · rw [if_pos h0, if_pos h0]
  · rw [if_neg h0, if_neg h0]
    exact decide_eq_decide.mpr (by omega)

theorem totalUpdates_nil : totalUpdates [] = 0 := rfl

theorem totalUpdates_cons (o : FrameOutput) (l : List FrameOutput) :
    totalUpdates (o :: l) = o.numUpdates + totalUpdates l := by
  simp [totalUpdates]

/-- Remainder bounds for the accumulator: subtracting `⌊x/P⌋` whole periods
from a nonnegative `x` leaves a value in `[0, P)`. -/
theorem floor_remainder_bounds (P x : ℚ) (hP : 0 < P) (hx : 0 ≤ x) :
    0 ≤ x - ((⌊x / P⌋.toNat : ℕ) : ℚ) * P ∧
    x - ((⌊x / P⌋.toNat : ℕ) : ℚ) * P < P := by
  have hfl : 0 ≤ ⌊x / P⌋ := Int.floor_nonneg.mpr (div_nonneg hx hP.le)
  have hcast : ((⌊x / P⌋.toNat : ℕ) : ℚ) = (⌊x / P⌋ : ℚ) := by
    exact_mod_cast Int.toNat_of_nonneg hfl
  constructor
  · have h3 : (⌊x / P⌋ : ℚ) ≤ x / P := Int.floor_le _
    have h4 : (⌊x / P⌋ : ℚ) * P ≤ x := by
      rw [← le_div_iff₀ hP]
      exact h3
    rw [hcast]
    linarith
  · have h1 : x / P < (⌊x / P⌋ : ℚ) + 1 := Int.lt_floor_add_one _
    have h4 : x < ((⌊x / P⌋ : ℚ) + 1) * P := (div_lt_iff₀ hP).mp h1
    rw [hcast]
    linarith

/-- A count `U` of whole periods whose remainder lands in `[0, P)` is the
floor of `T / P`. -/
theorem count_eq_floor (P T : ℚ) (hP : 0 < P) (U : ℕ)
    (h0 : 0 ≤ T - (U : ℚ) * P) (h1 : T - (U : ℚ) * P < P) :
    (U : ℤ) = ⌊T / P⌋ := by
  symm
  rw [Int.floor_eq_iff]
  constructor
  · rw [le_div_iff₀ hP]
    push_cast
    linarith
  · rw [div_lt_iff₀ hP]
    push_cast
    linarith

/-- Main loop invariant: starting from a state whose accumulator lies in
`[0, P)` and feeding frame times in `[0, 1/4]` (so the clamp never fires),
the final simulation time has advanced by exactly (number of `update` calls)
× P, the final accumulator is the total elapsed time minus the consumed whole
periods, and the accumulator is back in `[0, P)`. -/
theorem runFrames_inv (P skew : ℚ) (hP : 0 < P) :
    ∀ (fts : List ℚ) (s : FrameState),
      0 ≤ s.accumulatedTime → s.accumulatedTime < P →
      (∀ t ∈ fts, 0 ≤ t ∧ t ≤ 1 / 4) →
      (runFrames P skew s fts).1.simulationTime =
        s.simulationTime + (totalUpdates (runFrames P skew s fts).2 : ℚ) * P ∧
      (runFrames P skew s fts).1.accumulatedTime =
        s.accumulatedTime + fts.sum -
          (totalUpdates (runFrames P skew s fts).2 : ℚ) * P ∧
      0 ≤ (runFrames P skew s fts).1.accumulatedTime ∧
      (runFrames P skew s fts).1.accumulatedTime < P := by
  intro fts
  induction fts with
  | nil =>
    intro s h0 h1 _
    refine ⟨by simp [runFrames, totalUpdates], by simp [runFrames, totalUpdates], h0, h1⟩
  | cons ft rest ih =>
    intro s h0 h1 hfts
    have hft := hfts ft (List.mem_cons_self ft rest)
    have hrest : ∀ t ∈ rest, 0 ≤ t ∧ t ≤ 1 / 4 := fun t ht =>
      hfts t (List.mem_cons_of_mem _ ht)
    have hspec := processFrame_spec P skew hP s ft hft.2
    have hbounds := floor_remainder_bounds P (s.accumulatedTime + ft) hP
      (by linarith [hft.1])
    obtain ⟨ih1, ih2, ih3, ih4⟩ :=
      ih { simulationTime := s.simulationTime + (frameUpdateCount P s ft : ℚ) * P
           accumulatedTime := s.accumulatedTime + ft - (frameUpdateCount P s ft : ℚ) * P
           isRunningSlowly :=
             if frameUpdateCount P s ft = 0 then s.isRunningSlowly
             else decide (1 < frameUpdateCount P s ft) }
        hbounds.1 hbounds.2 hrest
    simp only [runFrames, hspec, totalUpdates_cons, List.sum_cons]
    refine ⟨?_, ?_, ih3, ih4⟩
    · rw [ih1]
      push_cast
      ring
    · rw [ih2]
      push_cast
      ring

/-! ### Evaluation of the loop at concrete inputs (update period 1/50 s) -/

theorem fuc_one_period : frameUpdateCount (1/50) initialFrameState (1/50) = 1 := by
  have e : (initialFrameState.accumulatedTime + 1/50) / (1/50 : ℚ) = 1 := by
    norm_num [initialFrameState]
  unfold frameUpdateCount
  rw [e, Int.floor_one]
  rfl

theorem fuc_frame1 : frameUpdateCount (1/50) initialFrameState (1/20) = 2 := by
  have e : (initialFrameState.accumulatedTime + 1/20) / (1/50 : ℚ) = 5/2 := by
    norm_num [initialFrameState]
  have efl : ⌊(5/2 : ℚ)⌋ = 2 := by
    rw [Int.floor_eq_iff]
    norm_num
  unfold frameUpdateCount
  rw [e, efl]
  rfl

theorem fuc_frame2 :
    frameUpdateCount (1/50) ⟨1/25, 1/100, true⟩ (1/1000) = 0 := by
  have e : ((1/100 : ℚ) + 1/1000) / (1/50 : ℚ) = 11/20 := by norm_num
  have efl : ⌊(11/20 : ℚ)⌋ = 0 := by
    rw [Int.floor_eq_iff]
    norm_num
  unfold frameUpdateCount
  rw [show ((⟨1/25, 1/100, true⟩ : FrameState).accumulatedTime + 1/1000) / (1/50 : ℚ)
      = 11/20 from e, efl]
  rfl

theorem frame1_numUpdates :
    (processFrame (1/50) (1/100) initialFrameState (1/20)).numUpdates = 2 := by
  rw [processFrame_spec (1/50) (1/100) (by norm_num) initialFrameState (1/20) (by norm_num)]
  exact fuc_frame1

theorem frame1_endState :
    (processFrame (1/50) (1/100) initialFrameState (1/20)).endState =
      ⟨1/25, 1/100, true⟩ := by
  rw [processFrame_spec (1/50) (1/100) (by norm_num) initialFrameState (1/20) (by norm_num)]
  simp only [fuc_frame1]
  simp only [initialFrameState]
  norm_num

theorem frame2_numUpdates :
    (processFrame (1/50) (1/100) ⟨1/25, 1/100, true⟩ (1/1000)).numUpdates = 0 := by
  rw [processFrame_spec (1/50) (1/100) (by norm_num) ⟨1/25, 1/100, true⟩ (1/1000)
    (by norm_num)]
  exact fuc_frame2

theorem frame2_isRunningSlowly :
    (processFrame (1/50) (1/100) ⟨1/25, 1/100, true⟩ (1/1000)).endState.isRunningSlowly
      = true := by
  rw [processFrame_spec (1/50) (1/100) (by norm_num) ⟨1/25, 1/100, true⟩ (1/1000)
    (by norm_num)]
  simp only [fuc_frame2]
  rfl

/-! ### Claims -/

/-- Claim C1 (code bug): the constructor does NOT store the supplied renderer.
Evaluating `GameClient::GameClient` at any non-null window/renderer pair shows
`mpRenderer` is initialized to `NULL` (the initializer list reads
`mpRenderer( NULL )`), even though the constructor asserts
`pRenderer != NULL`; consequently the main loop's `mpRenderer->present()`
dereferences a null pointer instead of presenting on the renderer supplied at
construction. -/
theorem construct_stores_null_renderer (w r : Addr) :
    (GameClient.construct (some w) (some r)).map GameClient.mpRenderer = some none := by
  simp [GameClient.construct]

/-- Claim C2: for frame times in `[0, 1/4]` (so the clamp never fires) summing
to `T` and update period `P > 0`, the loop calls `update` exactly `⌊T/P⌋`
times in total, and the final `simulationTime` is that count times `P`. -/
theorem mainLoop_update_count (P skew : ℚ) (hP : 0 < P) (fts : List ℚ)
    (hft : ∀ t ∈ fts, 0 ≤ t ∧ t ≤ 1 / 4) :
    (totalUpdates (runFrames P skew initialFrameState fts).2 : ℤ) = ⌊fts.sum / P⌋ ∧
    (runFrames P skew initialFrameState fts).1.simulationTime =
      (totalUpdates (runFrames P skew initialFrameState fts).2 : ℚ) * P := by
  obtain ⟨h1, h2, h3, h4⟩ := runFrames_inv P skew hP fts initialFrameState
    (by norm_num [initialFrameState]) (by simpa [initialFrameState] using hP) hft
  rw [h2] at h3 h4
  simp only [initialFrameState] at h1 h2 h3 h4 ⊢
  constructor
  · exact count_eq_floor P fts.sum hP _ (by linarith) (by linarith)
  · rw [h1]
    norm_num

/-- Witness for C2 at the spec's own scenario: update period 1/50 s and frame
times 0.05 s, 0.01 s, 0.02 s (total 0.08 s, i.e. 4 whole periods). -/
theorem mainLoop_update_count_witness :
    (totalUpdates (runFrames (1/50) (1/100) initialFrameState [1/20, 1/100, 1/50]).2 : ℤ)
      = ⌊(([1/20, 1/100, 1/50] : List ℚ).sum) / (1/50)⌋ :=
  (mainLoop_update_count (1/50) (1/100) (by norm_num) [1/20, 1/100, 1/50]
    (by intro t ht; simp only [List.mem_cons, List.not_mem_nil, or_false] at ht
        rcases ht with rfl | rfl | rfl <;> norm_num)).1

/-- Claim C3 counterexample: with update period 1/50 s, a first frame of
exactly 1/50 s drains the accumulator to exactly 0, and the interpolation
value passed to `draw` is exactly 1 — outside the claimed interval `[0, 1)`. -/
theorem interpolation_not_lt_one :
    (processFrame (1/50) (1/100) initialFrameState (1/50)).drawCall.2 = 1 ∧
    ¬((processFrame (1/50) (1/100) initialFrameState (1/50)).drawCall.2 < 1) := by
  have h : (processFrame (1/50) (1/100) initialFrameState (1/50)).drawCall.2 = 1 := by
    rw [processFrame_spec (1/50) (1/100) (by norm_num) initialFrameState (1/50)
      (by norm_num)]
    simp only [fuc_one_period]
    simp only [initialFrameState]
    norm_num
  exact ⟨h, by rw [h]; exact lt_irrefl 1⟩

/-- Claim C3 amended: on every frame reachable under the loop invariant
(nonnegative accumulator at frame entry, nonnegative elapsed time, positive
period), the interpolation value passed to `draw` lies in the half-open
interval `(0, 1]`. -/
theorem interpolation_mem_Ioc (P skew : ℚ) (hP : 0 < P) (s : FrameState)
    (hacc : 0 ≤ s.accumulatedTime) (ft : ℚ) (hft : 0 ≤ ft) :
    0 < (processFrame P skew s ft).drawCall.2 ∧
    (processFrame P skew s ft).drawCall.2 ≤ 1 := by
  have hcl : 0 ≤ (if ft > 1 / 4 then (1 / 4 : ℚ) else ft) := by
    split
    · norm_num
    · exact hft
  have hlt := drain_accumulatedTime_lt P hP
    ⟨s.simulationTime, s.accumulatedTime + (if ft > 1 / 4 then (1 / 4 : ℚ) else ft),
      s.isRunningSlowly, 0, []⟩
  have hge := drain_accumulatedTime_nonneg P hP
    ⟨s.simulationTime, s.accumulatedTime + (if ft > 1 / 4 then (1 / 4 : ℚ) else ft),
      s.isRunningSlowly, 0, []⟩
    (add_nonneg hacc hcl)
  simp only [processFrame]
  constructor
  · have hdiv : (drain P
        ⟨s.simulationTime, s.accumulatedTime + (if ft > 1 / 4 then (1 / 4 : ℚ) else ft),
          s.isRunningSlowly, 0, []⟩).accumulatedTime / P < 1 := (div_lt_one hP).mpr hlt
    linarith
  · have hdiv : 0 ≤ (drain P
        ⟨s.simulationTime, s.accumulatedTime + (if ft > 1 / 4 then (1 / 4 : ℚ) else ft),
          s.isRunningSlowly, 0, []⟩).accumulatedTime / P := div_nonneg hge hP.le
    linarith

/-- Witness for the amended C3 at period 1/50 s and frame time 0.03 s. -/
theorem interpolation_mem_Ioc_witness :
    0 < (processFrame (1/50) (1/100) initialFrameState (3/100)).drawCall.2 ∧
    (processFrame (1/50) (1/100) initialFrameState (3/100)).drawCall.2 ≤ 1 :=
  interpolation_mem_Ioc (1/50) (1/100) (by norm_num) initialFrameState
    (by norm_num [initialFrameState]) (3/100) (by norm_num)

/-- Claim C4: a frame time above 0.25 s is replaced by exactly 0.25 s before
being added to the accumulator, one at or below 0.25 s is used as measured,
the accumulator right before draining grew by exactly the clamped value, and
that growth never exceeds 0.25 s. -/
theorem frameTime_clamp (P skew : ℚ) (s : FrameState) (ft : ℚ) :
    (1 / 4 < ft → (processFrame P skew s ft).frameTimeUsed = 1 / 4) ∧
    (ft ≤ 1 / 4 → (processFrame P skew s ft).frameTimeUsed = ft) ∧
    (processFrame P skew s ft).accumulatedBeforeDrain =
      s.accumulatedTime + (processFrame P skew s ft).frameTimeUsed ∧
    (processFrame P skew s ft).accumulatedBeforeDrain - s.accumulatedTime ≤ 1 / 4 := by
  refine ⟨?_, ?_, ?_, ?_⟩
  · intro h
    simp only [processFrame]
    rw [if_pos h]
  · intro h
    simp only [processFrame]
    rw [if_neg (not_lt.mpr h)]
  · simp only [processFrame]
  · simp only [processFrame]
    by_cases h : ft > 1 / 4
    · rw [if_pos h]
      linarith
    · rw [if_neg h]
      have := not_lt.mp h
      linarith

/-- Witness for C4: a 0.5 s stall is clamped to 0.25 s. -/
theorem frameTime_clamp_witness :
    (processFrame (1/50) (1/100) initialFrameState (1/2)).frameTimeUsed = 1 / 4 :=
  (frameTime_clamp (1/50) (1/100) initialFrameState (1/2)).1 (by norm_num)

/-- Claim C5: `run()` returns the fatal-error status without calling
`loadContent()` when `initializeClient()` or `initialize()` fails; returns the
fatal-error status without entering the main loop when `loadContent()` fails;
and calls `unloadContent()` exactly when the main loop was entered, returning
the success status in that case. -/
theorem run_spec : ∀ (icRes initRes lcRes : Bool),
    ((icRes = false ∨ initRes = false) →
      (GameClient.run icRes initRes lcRes).2 = ProgramStatus.fatalError ∧
      RunEvent.callLoadContent ∉ (GameClient.run icRes initRes lcRes).1) ∧
    (icRes = true → initRes = true → lcRes = false →
      (GameClient.run icRes initRes lcRes).2 = ProgramStatus.fatalError ∧
      RunEvent.enterMainLoop ∉ (GameClient.run icRes initRes lcRes).1) ∧
    (RunEvent.callUnloadContent ∈ (GameClient.run icRes initRes lcRes).1 ↔
      RunEvent.enterMainLoop ∈ (GameClient.run icRes initRes lcRes).1) ∧
    (RunEvent.enterMainLoop ∈ (GameClient.run icRes initRes lcRes).1 →
      (GameClient.run icRes initRes lcRes).2 = ProgramStatus.ok) := by
  decide

/-- Witness for C5: a failing `initializeClient` yields the fatal status and
`loadContent` is never called. -/
theorem run_spec_witness :
    (GameClient.run false true true).2 = ProgramStatus.fatalError ∧
    RunEvent.callLoadContent ∉ (GameClient.run false true true).1 :=
  (run_spec false true true).1 (Or.inl rfl)

/-- Claim C6 counterexample: period 1/50 s, frames of 0.05 s then 0.001 s.
The first frame runs 2 updates and sets the flag; the second frame runs 0
updates, yet `mIsRunningSlowly` (only ever written inside the inner loop) is
still true at that frame's `draw` — refuting "true iff more than one update
step during that frame". -/
theorem runningSlowly_stale_flag :
    ((runFrames (1/50) (1/100) initialFrameState [1/20, 1/1000]).2.map
      (fun o => (o.numUpdates, o.endState.isRunningSlowly))) = [(2, true), (0, true)] := by
  simp only [runFrames, List.map_cons, List.map_nil, frame1_endState, frame1_numUpdates,
    frame2_numUpdates, frame2_isRunningSlowly]

/-- Claim C6 amended: on a frame that performs at least one update step, the
flag observable at `draw` is true iff more than one step ran this frame; on a
frame with zero steps the flag is left at its value from the previous frame. -/
theorem runningSlowly_flag_semantics (P skew : ℚ) (hP : 0 < P) (s : FrameState) (ft : ℚ) :
    (1 ≤ (processFrame P skew s ft).numUpdates →
      (processFrame P skew s ft).endState.isRunningSlowly =
        decide (1 < (processFrame P skew s ft).numUpdates)) ∧
    ((processFrame P skew s ft).numUpdates = 0 →
      (processFrame P skew s ft).endState.isRunningSlowly = s.isRunningSlowly) := by
  simp only [processFrame, drain_spec P hP, Nat.zero_add]
  constructor
  · intro h
    rw [if_neg (by omega)]
    exact decide_eq_decide.mpr (by omega)
  · intro h
    rw [if_pos (by omega)]

/-- Witness for the amended C6: a 0.05 s frame at period 1/50 s runs 2 update
steps and the flag reads true. -/
theorem runningSlowly_flag_semantics_witness :
    (processFrame (1/50) (1/100) initialFrameState (1/20)).endState.isRunningSlowly =
      decide (1 < (processFrame (1/50) (1/100) initialFrameState (1/20)).numUpdates) :=
  (runningSlowly_flag_semantics (1/50) (1/100) (by norm_num) initialFrameState
    (1/20)).1 (by rw [frame1_numUpdates]; norm_num)

/-- Claim C7: for positive `n`, `setUpdateFrequency(n)` sets the update period
to exactly `1/n` seconds and leaves every other member unchanged (the result
is the input client with only `mUpdateFrequency` replaced); for `n ≤ 0` the
assertion fires. -/
theorem setUpdateFrequency_spec (c : GameClient) (n : ℤ) :
    (0 < n →
      c.setUpdateFrequency n =
        some
          { mpMainWindow := c.mpMainWindow
            mpRenderer := c.mpRenderer
            mIsGameRunning := c.mIsGameRunning
            mIsRunningSlowly := c.mIsRunningSlowly
            mUpdateFrequency := 1 / (n : ℚ)
            mMaximumSleepSkew := c.mMaximumSleepSkew }) ∧
    (n ≤ 0 → c.setUpdateFrequency n = none) := by
  constructor
  · intro h
    rw [GameClient.setUpdateFrequency, if_pos h]
  · intro h
    rw [GameClient.setUpdateFrequency, if_neg (by omega)]

/-- Witness for C7: setting 25 updates per second yields a period of 1/25 s
and changes nothing else. -/
theorem setUpdateFrequency_spec_witness :
    GameClient.setUpdateFrequency
        ⟨some 0, none, false, false, 1/50, 1/100⟩ 25 =
      some ⟨some 0, none, false, false, 1 / ((25 : ℤ) : ℚ), 1/100⟩ :=
  (setUpdateFrequency_spec ⟨some 0, none, false, false, 1/50, 1/100⟩ 25).1
    (by norm_num)

/-- Claim C8: for every axis in `{0,1,2}` and all integers `a, b, c`, the
constructor `Point(axis, a, b, c)` succeeds and the stored components satisfy
`v[PR[axis]] = a`, `v[PC[axis]] = b`, `v[PD[axis]] = c`, so reading back
through the permutation recovers `(a, b, c)` exactly. -/
theorem mkAxis_permutation (ax : Fin 3) (a b c : ℤ) :
    ∃ p, Point.mkAxis (ax.val : ℤ) a b c = some p ∧
      p.v (PR ax) = a ∧ p.v (PC ax) = b ∧ p.v (PD ax) = c := by
  fin_cases ax <;> exact ⟨_, rfl, rfl, rfl, rfl⟩

/-- Claim C9: the end-of-frame sleep branch is taken iff
`accumulatedTime + mMaximumSleepSkew < mUpdateFrequency` holds for the drained
accumulator, and removing the sleep changes neither the end state
(simulation time, accumulator, slow flag) nor the update calls, the draw call,
or the update count. -/
theorem sleep_spec (P skew : ℚ) (s : FrameState) (ft : ℚ) :
    ((processFrame P skew s ft).slept = true ↔
      (processFrame P skew s ft).endState.accumulatedTime + skew < P) ∧
    (processFrameNoSleep P skew s ft).endState = (processFrame P skew s ft).endState ∧
    (processFrameNoSleep P skew s ft).updateCalls =
      (processFrame P skew s ft).updateCalls ∧
    (processFrameNoSleep P skew s ft).drawCall = (processFrame P skew s ft).drawCall ∧
    (processFrameNoSleep P skew s ft).numUpdates =
      (processFrame P skew s ft).numUpdates ∧
    (processFrameNoSleep P skew s ft).slept = false := by
  refine ⟨?_, rfl, rfl, rfl, rfl, rfl⟩
  simp [processFrame]

/-- Claim C10: choosing the depth axis (axis = 2) as primary yields the
identity permutation — `Point(2, a, b, c)` equals `Point(a, b, c)` — and for
every axis the three destination slots are pairwise distinct, so the
four-argument constructor initializes all three components: its result does
not depend on the pre-existing (uninitialized) component values. -/
theorem mkAxis_depth_identity (a b c : ℤ) :
    Point.mkAxis 2 a b c = some (Point.mk a b c) ∧
    (∀ ax : Fin 3, PR ax ≠ PC ax ∧ PR ax ≠ PD ax ∧ PC ax ≠ PD ax) ∧
    (∀ (p0 : Point) (axis : ℤ), Point.mkAxisFrom p0 axis a b c = Point.mkAxis axis a b c) := by
  refine ⟨rfl, by decide, ?_⟩
  intro p0 axis
  by_cases h : 0 ≤ axis ∧ axis < 3
  · obtain ⟨h1, h2⟩ := h
    interval_cases axis <;> (cases p0; rfl)
  · simp only [Point.mkAxis, Point.mkAxisFrom, dif_neg h]

end Cubeworld
